import Mathlib

/-!
Verification of the report subsystem of a management-server client SDK
(`smc/administration/reports.py`) and of the route-migration example script
(`smc/examples/add_sidewinder_routes.py`), together with the asynchronous
operation poller described by the design document.

Python strings are modelled as `String` (or `List Char` where character-level
reasoning is needed), Python `None`-able arguments as `Option`, Python dicts
with string keys as lookup functions `String → Option β`, and Python integer
truthiness (`if x:` is false for `None` and `0`) explicitly.
-/

/-- A Python dict with string keys, modelled as a lookup function. -/
abbrev PDict (β : Type) : Type := String → Option β

/-- The empty dict `\x7b\x7d`. -/
def PDict.empty {β : Type} : PDict β := fun _ => none

/-- `d[k] = v`: one key-value update, as performed by `dict.update`. -/
def PDict.insert {β : Type} (d : PDict β) (k : String) (v : β) : PDict β :=
  fun q => if q = k then some v else d q

/-- A value stored in the `params` query map: the submitted filter values are
integers (`start_time`, `end_time`, `launch_time`, `overriding_duration`)
or the boolean `use_elasticsearch` flag. -/
inductive PValue where
  | int (n : Int)
  | bool (b : Bool)
  deriving DecidableEq, Repr

/-- Python truthiness of an optional integer argument: `if x:` is false
exactly when `x` is `None` or `0`. -/
def truthyInt : Option Int → Bool
  | none => false
  | some n => n != 0

/-- Python truthiness of an optional string argument: `if x:` is false
exactly when `x` is `None` or the empty string. -/
def truthyStr : Option String → Bool
  | none => false
  | some s => s != ""

/-- The meta triple identifying a server-side entity: an href identifier,
a type tag and a display name (the spec's RemoteRef). -/
structure RemoteRef where
  href : String
  type : String
  name : String
  deriving DecidableEq, Repr

/-- An entry of the `senders` argument: either an element object carrying a
RemoteRef, or an already-opaque identifier string. -/
inductive SenderInput where
  | element (ref : RemoteRef)
  | ident (id : String)
  deriving DecidableEq, Repr

/-- The RemoteRef identifier an entry resolves to. -/
def SenderInput.resolved : SenderInput → String
  | .element r => r.href
  | .ident s => s

/-- Modelled from the spec: `element_resolver` (in `smc.base.util`, not under
`src/`) resolves each entry of a list from an element object or opaque
identifier into its RemoteRef identifier. -/
def element_resolver (senders : List SenderInput) : List String :=
  senders.map SenderInput.resolved

/-- The keyword bag `kw` handed on to `Task.execute`: an optional `params`
query map and an optional `json` request body.  `none` means the key is
absent from `kw` (the default call passes neither). -/
structure Kw where
  params : Option (PDict PValue)
  json : Option (PDict (List String))

/-- First statement of `ReportDesign.generate`:
`if start_time and end_time:` update `params` with the legacy pair
(`kw.setdefault("params", \x7b\x7d).update(...)` is modelled by updating the
existing map when present and the empty map otherwise). -/
def legacyTimeStep (start_time end_time : Option Int) (kw : Kw) : Kw :=
  if truthyInt start_time && truthyInt end_time then
    { kw with params := some (PDict.insert
        (PDict.insert (kw.params.getD PDict.empty)
          "start_time" (.int (start_time.getD 0)))
        "end_time" (.int (end_time.getD 0))) }
  else kw

/-- Second statement of `ReportDesign.generate`:
`if launch_time and overriding_duration:` update `params` with the
new-style duration filter and the `use_elasticsearch` flag. -/
def durationStep (launch_time overriding_duration : Option Int)
    (use_elasticsearch : Bool) (kw : Kw) : Kw :=
  if truthyInt launch_time && truthyInt overriding_duration then
    { kw with params := some (PDict.insert (PDict.insert
        (PDict.insert (kw.params.getD PDict.empty)
          "launch_time" (.int (launch_time.getD 0)))
        "overriding_duration" (.int (overriding_duration.getD 0)))
        "use_elasticsearch" (.bool use_elasticsearch)) }
  else kw

/-- Third statement of `ReportDesign.generate`:
`if senders:` update the `json` body with the resolved sender references
(a Python list is truthy exactly when it is nonempty). -/
def sendersStep (senders : List SenderInput) (kw : Kw) : Kw :=
  if !senders.isEmpty then
    { kw with json := some (PDict.insert (kw.json.getD PDict.empty)
        "senders" (element_resolver senders)) }
  else kw

/-- `ReportDesign.generate`: builds the request configuration submitted via
`Task.execute` by running its three `if` statements in order. -/
def ReportDesign.generate (start_time end_time launch_time overriding_duration : Option Int)
    (use_elasticsearch : Bool) (senders : List SenderInput) (kw : Kw) : Kw :=
  sendersStep senders
    (durationStep launch_time overriding_duration use_elasticsearch
      (legacyTimeStep start_time end_time kw))

/-- Lookup of a key in the submitted `params` query map (`none` when the
map itself is absent or the key is missing). -/
def Kw.paramsLookup (kw : Kw) (k : String) : Option PValue :=
  kw.params.bind fun d => d k

/-- Lookup of a key in the submitted `json` request body (`none` when the
body itself is absent or the key is missing). -/
def Kw.jsonLookup (kw : Kw) (k : String) : Option (List String) :=
  kw.json.bind fun d => d k

lemma sendersStep_params (senders : List SenderInput) (kw : Kw) :
    (sendersStep senders kw).params = kw.params := by
  unfold sendersStep; split <;> rfl

lemma durationStep_json (lt od : Option Int) (ue : Bool) (kw : Kw) :
    (durationStep lt od ue kw).json = kw.json := by
  unfold durationStep; split <;> rfl

lemma legacyTimeStep_json (st et : Option Int) (kw : Kw) :
    (legacyTimeStep st et kw).json = kw.json := by
  unfold legacyTimeStep; split <;> rfl

lemma durationStep_params_false {lt od : Option Int} (ue : Bool) (kw : Kw)
    (h : (truthyInt lt && truthyInt od) = false) :
    (durationStep lt od ue kw).params = kw.params := by
  simp [durationStep, h]

lemma generate_params_eq (st et lt od : Option Int) (ue : Bool)
    (senders : List SenderInput) (kw : Kw) :
    (ReportDesign.generate st et lt od ue senders kw).params =
      (durationStep lt od ue (legacyTimeStep st et kw)).params := by
  unfold ReportDesign.generate; rw [sendersStep_params]

/-- Claim C1: when both `start_time` and `end_time` are supplied (with their
usual nonzero millisecond values) and no complete new-style filter is given,
the submitted `params` map carries exactly the pair with the given values
and nothing else; in particular no `launch_time` key. -/
theorem generate_legacy_pair (s e : Int) (lt od : Option Int) (ue : Bool)
    (senders : List SenderInput)
    (hs : s ≠ 0) (he : e ≠ 0) (hno : lt = none ∨ od = none) :
    (ReportDesign.generate (some s) (some e) lt od ue senders ⟨none, none⟩).paramsLookup
        "start_time" = some (.int s) ∧
    (ReportDesign.generate (some s) (some e) lt od ue senders ⟨none, none⟩).paramsLookup
        "end_time" = some (.int e) ∧
    ∀ k, k ≠ "start_time" → k ≠ "end_time" →
      (ReportDesign.generate (some s) (some e) lt od ue senders ⟨none, none⟩).paramsLookup
        k = none := by
  have hg2 : (truthyInt lt && truthyInt od) = false := by
    rcases hno with h | h <;> simp [h, truthyInt]
  have hp : (ReportDesign.generate (some s) (some e) lt od ue senders ⟨none, none⟩).params
      = some (PDict.insert (PDict.insert PDict.empty "start_time" (.int s))
          "end_time" (.int e)) := by
    rw [generate_params_eq, durationStep_params_false _ _ hg2]
    simp [legacyTimeStep, truthyInt, hs, he]
  refine ⟨?_, ?_, ?_⟩
  · simp [Kw.paramsLookup, hp, PDict.insert]
  · simp [Kw.paramsLookup, hp, PDict.insert]
  · intro k hk1 hk2
    simp [Kw.paramsLookup, hp, PDict.insert, PDict.empty, hk1, hk2]

/-- Claim C1 witness: the concrete scenario `start_time=1000`, `end_time=2000`
with no other filter arguments. -/
theorem generate_legacy_pair_witness :
    (ReportDesign.generate (some 1000) (some 2000) none none false [] ⟨none, none⟩).paramsLookup
        "start_time" = some (.int 1000) ∧
    (ReportDesign.generate (some 1000) (some 2000) none none false [] ⟨none, none⟩).paramsLookup
        "end_time" = some (.int 2000) ∧
    (ReportDesign.generate (some 1000) (some 2000) none none false [] ⟨none, none⟩).paramsLookup
        "launch_time" = none := by
  have h := generate_legacy_pair 1000 2000 none none false []
    (by decide) (by decide) (Or.inl rfl)
  exact ⟨h.1, h.2.1, h.2.2 "launch_time" (by decide) (by decide)⟩

/-- Claim C2: when `launch_time` is supplied without `overriding_duration`
(or vice versa), the submitted `params` carry neither a `launch_time` key nor
an `overriding_duration` key: the new-style filter is both-or-neither. -/
theorem generate_newstyle_both_or_neither (st et lt od : Option Int) (ue : Bool)
    (senders : List SenderInput)
    (h : (lt ≠ none ∧ od = none) ∨ (lt = none ∧ od ≠ none)) :
    (ReportDesign.generate st et lt od ue senders ⟨none, none⟩).paramsLookup
        "launch_time" = none ∧
    (ReportDesign.generate st et lt od ue senders ⟨none, none⟩).paramsLookup
        "overriding_duration" = none := by
  have hg2 : (truthyInt lt && truthyInt od) = false := by
    rcases h with ⟨-, h2⟩ | ⟨h1, -⟩
    · simp [h2, truthyInt]
    · simp [h1, truthyInt]
  constructor <;>
  · simp only [Kw.paramsLookup, generate_params_eq, durationStep_params_false _ _ hg2]
    unfold legacyTimeStep
    split <;> simp [PDict.insert, PDict.empty]

/-- Claim C2 witness: the concrete scenario `launch_time=5000` with no
`overriding_duration`. -/
theorem generate_newstyle_both_or_neither_witness :
    (ReportDesign.generate none none (some 5000) none false [] ⟨none, none⟩).paramsLookup
        "launch_time" = none ∧
    (ReportDesign.generate none none (some 5000) none false [] ⟨none, none⟩).paramsLookup
        "overriding_duration" = none :=
  generate_newstyle_both_or_neither none none (some 5000) none false []
    (Or.inl ⟨by simp, rfl⟩)

/-- Claim C3: supplying all four filter arguments (with nonzero values) is not
rejected; the submitted `params` carry both complete filter styles at once,
with no cross-validation between the two styles. -/
theorem generate_both_styles (s e l o : Int) (ue : Bool) (senders : List SenderInput)
    (hs : s ≠ 0) (he : e ≠ 0) (hl : l ≠ 0) (ho : o ≠ 0) :
    (ReportDesign.generate (some s) (some e) (some l) (some o) ue senders
        ⟨none, none⟩).paramsLookup "start_time" = some (.int s) ∧
    (ReportDesign.generate (some s) (some e) (some l) (some o) ue senders
        ⟨none, none⟩).paramsLookup "end_time" = some (.int e) ∧
    (ReportDesign.generate (some s) (some e) (some l) (some o) ue senders
        ⟨none, none⟩).paramsLookup "launch_time" = some (.int l) ∧
    (ReportDesign.generate (some s) (some e) (some l) (some o) ue senders
        ⟨none, none⟩).paramsLookup "overriding_duration" = some (.int o) ∧
    (ReportDesign.generate (some s) (some e) (some l) (some o) ue senders
        ⟨none, none⟩).paramsLookup "use_elasticsearch" = some (.bool ue) := by
  have hp : (ReportDesign.generate (some s) (some e) (some l) (some o) ue senders
      ⟨none, none⟩).params
      = some (PDict.insert (PDict.insert (PDict.insert (PDict.insert (PDict.insert
          PDict.empty "start_time" (.int s)) "end_time" (.int e))
          "launch_time" (.int l)) "overriding_duration" (.int o))
          "use_elasticsearch" (.bool ue)) := by
    rw [generate_params_eq]
    simp [durationStep, legacyTimeStep, truthyInt, hs, he, hl, ho]
  refine ⟨?_, ?_, ?_, ?_, ?_⟩ <;> simp [Kw.paramsLookup, hp, PDict.insert]

/-- Claim C3 witness: all four filter values supplied together. -/
theorem generate_both_styles_witness :
    (ReportDesign.generate (some 1000) (some 2000) (some 5000) (some 600) true []
        ⟨none, none⟩).paramsLookup "start_time" = some (.int 1000) ∧
    (ReportDesign.generate (some 1000) (some 2000) (some 5000) (some 600) true []
        ⟨none, none⟩).paramsLookup "end_time" = some (.int 2000) ∧
    (ReportDesign.generate (some 1000) (some 2000) (some 5000) (some 600) true []
        ⟨none, none⟩).paramsLookup "launch_time" = some (.int 5000) ∧
    (ReportDesign.generate (some 1000) (some 2000) (some 5000) (some 600) true []
        ⟨none, none⟩).paramsLookup "overriding_duration" = some (.int 600) ∧
    (ReportDesign.generate (some 1000) (some 2000) (some 5000) (some 600) true []
        ⟨none, none⟩).paramsLookup "use_elasticsearch" = some (.bool true) :=
  generate_both_styles 1000 2000 5000 600 true []
    (by decide) (by decide) (by decide) (by decide)

/-- Claim C9: the filter guards test Python truthiness, not argument presence:
with both legacy arguments supplied but at least one equal to `0`, neither
`start_time` nor `end_time` is transmitted; and `use_elasticsearch` is
transmitted exactly when both new-style arguments are truthy. -/
theorem generate_truthy_guards (s e : Int) (lt od : Option Int) (ue : Bool)
    (senders : List SenderInput) (h0 : s = 0 ∨ e = 0) :
    ((ReportDesign.generate (some s) (some e) lt od ue senders ⟨none, none⟩).paramsLookup
        "start_time" = none ∧
     (ReportDesign.generate (some s) (some e) lt od ue senders ⟨none, none⟩).paramsLookup
        "end_time" = none) ∧
    ∀ st et : Option Int,
      (ReportDesign.generate st et lt od ue senders ⟨none, none⟩).paramsLookup
          "use_elasticsearch"
        = if truthyInt lt && truthyInt od then some (.bool ue) else none := by
  have hg1 : (truthyInt (some s) && truthyInt (some e)) = false := by
    rcases h0 with h | h <;> subst h <;> simp [truthyInt]
  have hleg : legacyTimeStep (some s) (some e) (⟨none, none⟩ : Kw) = ⟨none, none⟩ := by
    simp [legacyTimeStep, hg1]
  constructor
  · constructor <;>
    · simp only [Kw.paramsLookup, generate_params_eq, hleg]
      unfold durationStep
      split <;> simp [PDict.insert, PDict.empty]
  · intro st et
    by_cases hg : (truthyInt lt && truthyInt od) = true
    · simp only [Kw.paramsLookup, generate_params_eq]
      simp [durationStep, hg, PDict.insert]
    · have hg' : (truthyInt lt && truthyInt od) = false := by
        revert hg; cases (truthyInt lt && truthyInt od) <;> simp
      simp only [Kw.paramsLookup, generate_params_eq, durationStep_params_false _ _ hg', hg']
      unfold legacyTimeStep
      split <;> simp [PDict.insert, PDict.empty]

/-- Claim C9 witness: `start_time=0` drops the legacy pair, and
`use_elasticsearch=True` is silently dropped without a complete
new-style filter. -/
theorem generate_truthy_guards_witness :
    (ReportDesign.generate (some 0) (some 2000) (some 5000) none true []
        ⟨none, none⟩).paramsLookup "start_time" = none ∧
    (ReportDesign.generate (some 0) (some 2000) (some 5000) none true []
        ⟨none, none⟩).paramsLookup "end_time" = none ∧
    (ReportDesign.generate (some 0) (some 2000) (some 5000) none true []
        ⟨none, none⟩).paramsLookup "use_elasticsearch" = none := by
  have h := generate_truthy_guards 0 2000 (some 5000) none true [] (Or.inl rfl)
  refine ⟨h.1.1, h.1.2, ?_⟩
  have h2 := h.2 (some 0) (some 2000)
  simpa [truthyInt] using h2

/-- Claim C4: a non-empty `senders` list is resolved into RemoteRef
identifiers and placed under the `senders` key of the request body; an empty
list leaves the request body absent (no `senders` key). -/
theorem generate_senders_resolved (st et lt od : Option Int) (ue : Bool)
    (senders : List SenderInput) :
    (senders ≠ [] →
      (ReportDesign.generate st et lt od ue senders ⟨none, none⟩).jsonLookup "senders"
        = some (element_resolver senders)) ∧
    (senders = [] →
      (ReportDesign.generate st et lt od ue senders ⟨none, none⟩).json = none) := by
  have hj : (durationStep lt od ue (legacyTimeStep st et (⟨none, none⟩ : Kw))).json
      = none := by
    rw [durationStep_json, legacyTimeStep_json]
  constructor
  · intro hne
    have hse : senders.isEmpty = false := by
      cases senders
      · exact absurd rfl hne
      · rfl
    unfold ReportDesign.generate sendersStep
    simp [hse, hj, Kw.jsonLookup, PDict.insert]
  · intro he
    subst he
    unfold ReportDesign.generate sendersStep
    simpa using hj

/-- Claim C4 witness: one element object and one opaque identifier are
resolved into identifiers under the `senders` key; the empty list produces
no request body. -/
theorem generate_senders_resolved_witness :
    (ReportDesign.generate none none none none false
        [SenderInput.element ⟨"href1", "fw_cluster", "vm"⟩, SenderInput.ident "href2"]
        ⟨none, none⟩).jsonLookup "senders" = some ["href1", "href2"] ∧
    (ReportDesign.generate none none none none false [] ⟨none, none⟩).json = none := by
  refine ⟨?_, (generate_senders_resolved none none none none false []).2 rfl⟩
  have h := (generate_senders_resolved none none none none false
    [SenderInput.element ⟨"href1", "fw_cluster", "vm"⟩, SenderInput.ident "href2"]).1
    (by simp)
  simpa [element_resolver, SenderInput.resolved] using h

/-- The raw result object returned by the transport for an export request. -/
structure RawResult where
  content : String
  deriving DecidableEq, Repr

/-- Observable outcome of an export call: the payload returned to the caller
and the optional file write side effect (destination path, bytes written). -/
structure ExportOutcome where
  returned : Option String
  written : Option (String × String)
  deriving DecidableEq, Repr

/-- Modelled from the spec: `make_request` (in `smc.base`, not under `src/`)
with a destination filename writes the fetched content to that path as a side
effect; with no destination the content stays on the returned raw result.
Python truthiness: an empty-string filename counts as absent. -/
def make_request (filename : Option String) (server_content : String) :
    RawResult × Option (String × String) :=
  if truthyStr filename then (⟨server_content⟩, some (filename.getD "", server_content))
  else (⟨server_content⟩, none)

/-- `Report.export_pdf`: always takes a filename, performs the export request
and returns nothing (the Python method has no return statement). -/
def Report.export_pdf (filename : String) (server_content : String) : ExportOutcome :=
  ⟨none, (make_request (some filename) server_content).2⟩

/-- `Report.export_text`: performs the export request and returns
`result.content` exactly when `if not filename:` holds. -/
def Report.export_text (filename : Option String) (server_content : String) :
    ExportOutcome :=
  let r := make_request filename server_content
  ⟨if !truthyStr filename then some r.1.content else none, r.2⟩

/-- Claim C5 counterexample: with the empty-string filename (supplied, not
None) `export_text` still returns the raw content, refuting the claim that
the content is returned exactly when the filename is None. -/
theorem export_text_empty_filename_counterexample :
    (Report.export_text (some "") "abc").returned = some "abc" ∧
    (some "" : Option String) ≠ none := by
  constructor
  · rfl
  · simp

/-- Claim C5 amended: a truthy destination results in a side-effecting write
and no returned payload; a falsy destination (absent or the empty string)
results in the content being returned directly and no write; `export_text`
returns the raw content exactly when the filename is falsy, and `export_pdf`
always returns no payload. -/
theorem export_destination_contract (fn : Option String) (pf c : String) :
    ((Report.export_text fn c).returned = some c ↔ truthyStr fn = false) ∧
    (truthyStr fn = true →
      (Report.export_text fn c).returned = none ∧
      (Report.export_text fn c).written = some (fn.getD "", c)) ∧
    (truthyStr fn = false → (Report.export_text fn c).written = none) ∧
    (Report.export_pdf pf c).returned = none ∧
    (truthyStr (some pf) = true → (Report.export_pdf pf c).written = some (pf, c)) := by
  cases hf : truthyStr fn <;>
    simp [Report.export_text, Report.export_pdf, make_request, hf] <;>
    intro hpf <;> simp [hpf]

/-- Claim C5 witness: a real path is written and nothing returned; an absent
path returns the content in memory; a pdf export returns nothing. -/
theorem export_destination_contract_witness :
    (Report.export_text (some "out.txt") "data").returned = none ∧
    (Report.export_text (some "out.txt") "data").written = some ("out.txt", "data") ∧
    (Report.export_text none "data").returned = some "data" ∧
    (Report.export_text none "data").written = none ∧
    (Report.export_pdf "out.pdf" "data").returned = none ∧
    (Report.export_pdf "out.pdf" "data").written = some ("out.pdf", "data") := by
  have h1 := export_destination_contract (some "out.txt") "out.pdf" "data"
  have h2 := export_destination_contract none "out.pdf" "data"
  exact ⟨(h1.2.1 (by decide)).1, (h1.2.1 (by decide)).2, h2.1.mpr rfl,
    h2.2.2.1 rfl, h1.2.2.2.1, h1.2.2.2.2 (by decide)⟩

/-- Modelled from the spec: a structured time value as produced by
`datetime_from_ms` (in `smc.base.util`, not under `src/`): the epoch second
and the millisecond remainder of the server's epoch-millisecond integer. -/
structure StructuredTime where
  epochSeconds : Int
  msOfSecond : Int
  deriving DecidableEq, Repr

/-- Modelled from the spec: `datetime_from_ms` converts a server
epoch-millisecond integer to a structured time value; a pure conversion with
no validation. -/
def datetime_from_ms (ms : Int) : StructuredTime :=
  ⟨ms / 1000, ms % 1000⟩

/-- The stored attribute triple of a generated report (`self.data`). -/
structure ReportData where
  creation_time : Int
  period_begin : Int
  period_end : Int
  deriving DecidableEq, Repr

/-- `Report.creation_time`: converts the stored millisecond value. -/
def Report.creation_time (r : ReportData) : StructuredTime :=
  datetime_from_ms r.creation_time

/-- `Report.period_begin`: converts the stored millisecond value. -/
def Report.period_begin (r : ReportData) : StructuredTime :=
  datetime_from_ms r.period_begin

/-- `Report.period_end`: converts the stored millisecond value. -/
def Report.period_end (r : ReportData) : StructuredTime :=
  datetime_from_ms r.period_end

/-- Claim C6: the timestamp accessors are pure conversions defined for every
stored triple with no ordering validation: even on a disordered triple
(period_begin > period_end and period_end > creation_time) each accessor
returns exactly the stored millisecond value converted to a structured time,
and the conversion faithfully decomposes the original value. -/
theorem report_timestamps_pure (c pb pe : Int) (_h1 : pe < pb) (_h2 : c < pe) :
    Report.creation_time ⟨c, pb, pe⟩ = datetime_from_ms c ∧
    Report.period_begin ⟨c, pb, pe⟩ = datetime_from_ms pb ∧
    Report.period_end ⟨c, pb, pe⟩ = datetime_from_ms pe ∧
    ∀ m : Int,
      1000 * (datetime_from_ms m).epochSeconds + (datetime_from_ms m).msOfSecond = m := by
  refine ⟨rfl, rfl, rfl, fun m => ?_⟩
  simpa [datetime_from_ms] using Int.ediv_add_emod m 1000

/-- Claim C6 witness: a concrete disordered triple is read back without any
failure, each field converted independently. -/
theorem report_timestamps_pure_witness :
    Report.period_begin ⟨1000, 5000, 3000⟩ = datetime_from_ms 5000 ∧
    Report.period_end ⟨1000, 5000, 3000⟩ = datetime_from_ms 3000 ∧
    Report.creation_time ⟨1000, 5000, 3000⟩ = datetime_from_ms 1000 := by
  have h := report_timestamps_pure 1000 5000 3000 (by decide) (by decide)
  exact ⟨h.2.1, h.2.2.1, h.1⟩

/-- The `typeof` tag of the `ReportDesign` wrapper class. -/
def ReportDesign.typeof : String := "report_design"

/-- The `typeof` tag of the `ReportTemplate` wrapper class. -/
def ReportTemplate.typeof : String := "report_template"

/-- The `typeof` tag of the `Report` wrapper class. -/
def Report.typeof : String := "report_file"

/-- The server's reply to the `create_design` create request. -/
inductive CreateResult where
  | ok (href : String)
  | rejected (reason : String)
  deriving DecidableEq, Repr

/-- The failure raised when the server rejects an element creation. -/
inductive SmcError where
  | createElementFailed (reason : String)
  deriving DecidableEq, Repr

/-- `ReportTemplate.create_design`: one remote create call with the new name
as parameter; on success it returns
`ReportDesign(href=result.href, type=self.typeof, name=name)` — note that
`self` is the template, so `self.typeof` is the template's tag — and on
rejection it raises `CreateElementFailed`. -/
def ReportTemplate.create_design (name : String) (server : CreateResult) :
    Except SmcError RemoteRef :=
  match server with
  | .ok href => .ok ⟨href, ReportTemplate.typeof, name⟩
  | .rejected reason => .error (.createElementFailed reason)

/-- Claim C7 counterexample: the element returned by a successful
`create_design` carries the template's type tag `report_template`, not a tag
identifying a report design. -/
theorem create_design_type_counterexample :
    ReportTemplate.create_design "myfirewallreport" (.ok "href9")
      = .ok ⟨"href9", "report_template", "myfirewallreport"⟩ ∧
    ("report_template" : String) ≠ ReportDesign.typeof := by
  constructor
  · rfl
  · decide

/-- Claim C7 amended: `create_design` performs one remote create call; on
success it returns an element whose display name equals the supplied name and
whose type tag carries the template's tag `report_template`; when the server
rejects the creation it raises `CreateElementFailed`, the design-creation
stage's distinct failure. -/
theorem create_design_contract (name href reason : String) :
    ReportTemplate.create_design name (.ok href)
      = .ok ⟨href, ReportTemplate.typeof, name⟩ ∧
    (ReportTemplate.create_design name (.ok href)).toOption.map RemoteRef.name
      = some name ∧
    ReportTemplate.create_design name (.rejected reason)
      = .error (.createElementFailed reason) :=
  ⟨rfl, rfl, rfl⟩

/-- A poll result snapshot: `pending` is the only non-terminal state;
`succeeded` carries the ordered resolved resources and `failed` the
server-reported diagnostic. -/
inductive PollResult where
  | pending
  | succeeded (resources : List RemoteRef)
  | failed (reason : String) (code : Option Int)
  deriving DecidableEq, Repr

/-- Whether a poll result is terminal (`succeeded` or `failed`). -/
def PollResult.isTerminal : PollResult → Bool
  | .pending => false
  | .succeeded _ => true
  | .failed _ _ => true

/-- Modelled from the spec: the server status vocabulary observed by one
status request. -/
inductive ServerStatus where
  | inProgress
  | completed (resources : List RemoteRef)
  | errored (reason : String) (code : Option Int)
  deriving DecidableEq, Repr

/-- Modelled from the spec: the mapping from the server status vocabulary to
the poll-result tagged union. -/
def mapStatus : ServerStatus → PollResult
  | .inProgress => .pending
  | .completed rs => .succeeded rs
  | .errored r c => .failed r c

/-- Modelled from the spec: an operation handle together with the poller's
cached last poll result (`none` while still in the Created state). -/
structure Handle where
  last : Option PollResult
  deriving DecidableEq, Repr

/-- A freshly submitted handle: no status has been observed yet. -/
def Handle.initial : Handle := ⟨none⟩

/-- Modelled from the spec: `poll_once` issues one status request and maps
the observed server status; no transition leaves a terminal state, so a
handle whose cached result is terminal keeps returning it unchanged. -/
def poll_once (h : Handle) (s : ServerStatus) : PollResult × Handle :=
  match h.last with
  | some r =>
    if r.isTerminal then (r, h)
    else (mapStatus s, ⟨some (mapStatus s)⟩)
  | none => (mapStatus s, ⟨some (mapStatus s)⟩)

/-- The sequence of poll results produced by repeatedly calling `poll_once`
on the successive observed server statuses. -/
def pollTrace (h : Handle) : List ServerStatus → List PollResult
  | [] => []
  | s :: rest =>
    let pr := poll_once h s
    pr.1 :: pollTrace pr.2 rest

lemma poll_once_last (h : Handle) (s : ServerStatus) :
    (poll_once h s).2.last = some (poll_once h s).1 := by
  unfold poll_once
  match h with
  | ⟨none⟩ => rfl
  | ⟨some r⟩ =>
    by_cases hr : r.isTerminal = true <;> simp [hr]

lemma pollTrace_terminal_absorb (ss : List ServerStatus) (h : Handle)
    (r : PollResult) (hl : h.last = some r) (ht : r.isTerminal = true) :
    pollTrace h ss = List.replicate ss.length r := by
  induction ss generalizing h with
  | nil => rfl
  | cons s rest ih =>
    have hstep : poll_once h s = (r, h) := by
      unfold poll_once
      rw [hl]
      simp [ht]
    simp only [pollTrace, hstep, List.length_cons, List.replicate_succ]
    exact congrArg (List.cons r) (ih h hl)

lemma pollTrace_persist (ss : List ServerStatus) (h : Handle) (i j : Nat)
    (r r' : PollResult) (hij : i ≤ j) (hi : (pollTrace h ss)[i]? = some r)
    (ht : r.isTerminal = true) (hj : (pollTrace h ss)[j]? = some r') :
    r' = r := by
  induction ss generalizing h i j with
  | nil => simp [pollTrace] at hi
  | cons s rest ih =>
    match i, j with
    | 0, 0 =>
      rw [hi] at hj
      exact (Option.some.injEq _ _ ▸ hj).symm
    | 0, j + 1 =>
      have hr : (poll_once h s).1 = r := by
        simpa [pollTrace] using hi
      have habs : pollTrace (poll_once h s).2 rest = List.replicate rest.length r := by
        refine pollTrace_terminal_absorb rest _ r ?_ ht
        rw [poll_once_last, hr]
      have hj' : (pollTrace (poll_once h s).2 rest)[j]? = some r' := by
        simpa [pollTrace] using hj
      rw [habs, List.getElem?_replicate] at hj'
      by_cases hjl : j < rest.length
      · simpa [hjl] using hj'.symm
      · simp [hjl] at hj'
    | i + 1, j + 1 =>
      exact ih (poll_once h s).2 i j (Nat.le_of_succ_le_succ hij)
        (by simpa [pollTrace] using hi) (by simpa [pollTrace] using hj)

/-- Claim C8: along any sequence of observed server statuses, every poll
before a terminal condition yields `pending` (the only non-terminal result),
and once a poll yields a terminal result every subsequent poll of the same
handle yields the identical terminal result. -/
theorem poller_terminal_idempotent (ss : List ServerStatus) :
    (∀ q ∈ pollTrace Handle.initial ss, q.isTerminal = false → q = .pending) ∧
    ∀ (i j : Nat) (r r' : PollResult), i ≤ j →
      (pollTrace Handle.initial ss)[i]? = some r →
      r.isTerminal = true → (pollTrace Handle.initial ss)[j]? = some r' →
      r' = r ∧ r'.isTerminal = true := by
  constructor
  · intro q _ hq
    cases q with
    | pending => rfl
    | succeeded rs => simp [PollResult.isTerminal] at hq
    | failed r c => simp [PollResult.isTerminal] at hq
  · intro i j r r' hij hi ht hj
    have := pollTrace_persist ss Handle.initial i j r r' hij hi ht hj
    exact ⟨this, this ▸ ht⟩

/-- Claim C8 witness: a concrete run that polls, succeeds, and is polled once
more: the terminal result is returned identically afterwards. -/
theorem poller_terminal_idempotent_witness :
    pollTrace Handle.initial
        [ServerStatus.inProgress, ServerStatus.completed [], ServerStatus.inProgress]
      = [PollResult.pending, PollResult.succeeded [], PollResult.succeeded []] ∧
    PollResult.pending = PollResult.pending ∧
    (PollResult.succeeded [] = PollResult.succeeded [] ∧
      (PollResult.succeeded []).isTerminal = true) := by
  refine ⟨by decide, ?_, ?_⟩
  · exact (poller_terminal_idempotent
      [ServerStatus.inProgress, ServerStatus.completed [], ServerStatus.inProgress]).1
      .pending (by decide) rfl
  · exact (poller_terminal_idempotent
      [ServerStatus.inProgress, ServerStatus.completed [], ServerStatus.inProgress]).2
      1 2 (.succeeded []) (.succeeded []) (by decide) (by decide) rfl (by decide)

/-- The number of occurrences of the digit character 1 in the binary digit
string of `n`: embeds Python `bin(x).count("1")` for a nonnegative `x`
(the `0b` prefix contains no 1). -/
def binOnes (n : Nat) : Nat := (Nat.toDigits 2 n).count '1'

/-- Decimal parsing of a digit string: embeds Python `int(x)` on the
nonnegative decimal strings appearing in a dotted netmask. -/
def parseNat (l : List Char) : Nat :=
  l.foldl (fun a c => 10 * a + (c.toNat - 48)) 0

/-- `mask_convertor` from the route-migration script, on strings as
character lists: split on the slash, pop the netmask, sum the 1 bits of its
dot-separated octets, append the decimal bit count and re-join with
slashes. -/
def mask_convertor (s : List Char) : List Char :=
  let netmask := s.splitOn '/'
  let cidr := (((netmask.getLastD []).splitOn '.').map
    fun x => binOnes (parseNat x)).sum
  List.intercalate ['/'] (netmask.dropLast ++ [Nat.toDigits 10 cidr])

lemma isDigit_not_beq {sep : Char} (hsep : sep.isDigit = false) :
    ∀ x : Char, x.isDigit = true → ¬((x == sep) = true) := by
  intro x hx h
  rw [beq_iff_eq] at h
  subst h
  rw [hx] at hsep
  exact Bool.noConfusion hsep

/-- Claim C10: on an input of the form `net/a.b.c.d` with decimal octets,
`mask_convertor` returns `net/n` where `n` is the total number of 1 bits in
the binary representations of the four octets, the network part unchanged. -/
theorem mask_convertor_spec (net a b c d : List Char)
    (hnet : '/' ∉ net)
    (ha : ∀ ch ∈ a, ch.isDigit = true) (hb : ∀ ch ∈ b, ch.isDigit = true)
    (hc : ∀ ch ∈ c, ch.isDigit = true) (hds : ∀ ch ∈ d, ch.isDigit = true) :
    mask_convertor (net ++ '/' :: (a ++ '.' :: (b ++ '.' :: (c ++ '.' :: d))))
      = net ++ '/' :: Nat.toDigits 10
          (binOnes (parseNat a) + (binOnes (parseNat b)
            + (binOnes (parseNat c) + binOnes (parseNat d)))) := by
  have hslash : ∀ x : Char, x.isDigit = true → ¬((x == '/') = true) :=
    isDigit_not_beq (by decide)
  have hdot : ∀ x : Char, x.isDigit = true → ¬((x == '.') = true) :=
    isDigit_not_beq (by decide)
  have hnet' : ∀ x ∈ net, ¬((x == '/') = true) := by
    intro x hx h
    rw [beq_iff_eq] at h
    exact hnet (h ▸ hx)
  have hrestdig : ∀ x ∈ a ++ '.' :: (b ++ '.' :: (c ++ '.' :: d)),
      x.isDigit = true ∨ x = '.' := by
    intro x hx
    rcases List.mem_append.mp hx with h | h
    · exact Or.inl (ha x h)
    · rcases List.mem_cons.mp h with h | h
      · exact Or.inr h
      · rcases List.mem_append.mp h with h | h
        · exact Or.inl (hb x h)
        · rcases List.mem_cons.mp h with h | h
          · exact Or.inr h
          · rcases List.mem_append.mp h with h | h
            · exact Or.inl (hc x h)
            · rcases List.mem_cons.mp h with h | h
              · exact Or.inr h
              · exact Or.inl (hds x h)
  have hrest' : ∀ x ∈ a ++ '.' :: (b ++ '.' :: (c ++ '.' :: d)),
      ¬((x == '/') = true) := by
    intro x hx h
    rcases hrestdig x hx with hdig | hdotc
    · exact hslash x hdig h
    · subst hdotc
      exact absurd h (by decide)
  have h1 : (net ++ '/' :: (a ++ '.' :: (b ++ '.' :: (c ++ '.' :: d)))).splitOn '/'
      = [net, a ++ '.' :: (b ++ '.' :: (c ++ '.' :: d))] := by
    show (net ++ '/' :: (a ++ '.' :: (b ++ '.' :: (c ++ '.' :: d)))).splitOnP
        (· == '/') = _
    rw [List.splitOnP_first _ _ hnet' '/' (by decide),
        List.splitOnP_eq_single _ _ hrest']
  have ha' : ∀ x ∈ a, ¬((x == '.') = true) := fun x hx => hdot x (ha x hx)
  have hb' : ∀ x ∈ b, ¬((x == '.') = true) := fun x hx => hdot x (hb x hx)
  have hc' : ∀ x ∈ c, ¬((x == '.') = true) := fun x hx => hdot x (hc x hx)
  have hd' : ∀ x ∈ d, ¬((x == '.') = true) := fun x hx => hdot x (hds x hx)
  have h2 : (a ++ '.' :: (b ++ '.' :: (c ++ '.' :: d))).splitOn '.'
      = [a, b, c, d] := by
    show (a ++ '.' :: (b ++ '.' :: (c ++ '.' :: d))).splitOnP (· == '.') = _
    rw [List.splitOnP_first _ _ ha' '.' (by decide),
        List.splitOnP_first _ _ hb' '.' (by decide),
        List.splitOnP_first _ _ hc' '.' (by decide),
        List.splitOnP_eq_single _ _ hd']
  simp only [mask_convertor, h1]
  rw [show ([net, a ++ '.' :: (b ++ '.' :: (c ++ '.' :: d))] : List (List Char)).getLastD []
        = a ++ '.' :: (b ++ '.' :: (c ++ '.' :: d)) from rfl,
      h2]
  simp [List.intercalate, List.intersperse]

/-- Claim C10 witness: the script's own example route
`10.10.10.0/255.255.255.0` converts to `10.10.10.0/24`. -/
theorem mask_convertor_spec_witness :
    mask_convertor (['1', '0', '.', '1', '0', '.', '1', '0', '.', '0'] ++ '/' ::
        (['2', '5', '5'] ++ '.' :: (['2', '5', '5'] ++ '.' ::
          (['2', '5', '5'] ++ '.' :: ['0']))))
      = ['1', '0', '.', '1', '0', '.', '1', '0', '.', '0'] ++ '/' :: ['2', '4'] := by
  have h := mask_convertor_spec ['1', '0', '.', '1', '0', '.', '1', '0', '.', '0']
    ['2', '5', '5'] ['2', '5', '5'] ['2', '5', '5'] ['0']
    (by decide) (by decide) (by decide) (by decide) (by decide)
  rw [h]
  decide
